import Mathlib

set_option maxRecDepth 10000

/-! Verification development for the `eda-cli` repository.

The analytical core (`eda_cli/core.py`: `summarize_dataset`, `missing_table`,
`correlation_matrix`, `top_categories`, `compute_quality_flags`) is not part of
the delivered sources; only its tests (`tests/test_core.py`) and its caller
(`eda_cli/cli.py`) are.  The core is therefore modelled from the specification
(sections 3, 4 and 7), and the CLI layer is embedded from `cli.py` directly.
Real-valued statistics are modelled over `ℚ` (exact rationals standing in for
the floats of the implementation); correlation coefficients, which need square
roots, live in `ℝ`.
-/

namespace EdaCli

/-- Modelled from the spec: a cell value of a table column is either numeric or
text (section 3, "values of a single inferred kind"). Rationals stand in for
the numeric values. -/
inductive Val where
  | num (q : ℚ)
  | str (s : String)
deriving DecidableEq

/-- A cell of a column; `none` models a missing value (NaN / None). -/
abbrev Cell := Option Val

/-- Modelled from the spec: a named column holding a sequence of cells. -/
structure Column where
  name : String
  cells : List Cell
deriving DecidableEq

/-- Modelled from the spec: a Table is an ordered sequence of named columns
(section 3). -/
structure Table where
  cols : List Column
deriving DecidableEq

/-- Row count of a table: the length of its first column (0 for a table with
no columns).  For well-formed tables every column has this length. -/
def Table.nRows (t : Table) : Nat :=
  match t.cols with
  | [] => 0
  | c :: _ => c.cells.length

/-- Spec invariant (section 3): all columns have equal length (= row count). -/
def Table.WellFormed (t : Table) : Prop :=
  ∀ c ∈ t.cols, c.cells.length = t.nRows

/-- The non-missing values of a column, in row order. -/
def Column.nonMissing (c : Column) : List Val :=
  c.cells.filterMap id

def Val.isNum : Val → Bool
  | .num _ => true
  | .str _ => false

/-- Modelled from the spec: kind inference — a column is numeric when all of
its non-missing values are numeric, else it is categorical (section 4.1). -/
def Column.isNumeric (c : Column) : Bool :=
  c.nonMissing.all Val.isNum

/-- Distinct elements of a list in order of first occurrence, skipping those
already `seen`. -/
def uniqueAux {α : Type} [DecidableEq α] : List α → List α → List α
  | [], _ => []
  | v :: vs, seen =>
      if v ∈ seen then uniqueAux vs seen else v :: uniqueAux vs (v :: seen)

/-- The distinct elements of a list in order of first occurrence. -/
def uniqueInOrder {α : Type} [DecidableEq α] (l : List α) : List α :=
  uniqueAux l []

/-- Count of distinct non-missing values of a column (missing ignored, as in
the spec's constant-column rule, section 4.5). -/
def Column.distinctCount (c : Column) : Nat :=
  (uniqueInOrder c.nonMissing).length

/-- Number of missing cells of a column. -/
def Column.missingCount (c : Column) : Nat :=
  c.cells.countP (fun x => x.isNone)

/-- The numeric values of a column (non-missing cells that are numbers). -/
def Column.numValues (c : Column) : List ℚ :=
  c.cells.filterMap (fun x =>
    match x with
    | some (.num q) => some q
    | _ => none)

/-- Count of non-missing values equal to 0 in a column (numeric zeros). -/
def Column.zeroCount (c : Column) : Nat :=
  c.numValues.count 0

/-- Mean of a list of rationals; `none` when the list is empty (the spec leaves
numeric stats absent when no non-missing values exist, section 4.1). -/
def listMean (l : List ℚ) : Option ℚ :=
  match l with
  | [] => none
  | _ => some (l.sum / l.length)

def listMin (l : List ℚ) : Option ℚ :=
  match l with
  | [] => none
  | x :: xs => some (xs.foldl min x)

def listMax (l : List ℚ) : Option ℚ :=
  match l with
  | [] => none
  | x :: xs => some (xs.foldl max x)

/-- Modelled from the spec (section 3): per-column summary — name, inferred
kind, non-missing count, missing count, missing share, distinct count,
numeric min/max/mean.  The count of numeric zero values is carried as well:
section 4.5 requires the quality engine, which sees only the summary and the
missing table, to compute `zero_share` = fraction of non-missing values equal
to 0 for numeric columns. -/
structure ColumnSummary where
  name : String
  is_numeric : Bool
  non_missing : Nat
  missing_count : Nat
  missing_share : ℚ
  distinct : Nat
  zeros : Nat
  min : Option ℚ
  max : Option ℚ
  mean : Option ℚ
deriving DecidableEq

/-- Summary of one column of a table with `nRows` rows.  `missing_share` is
`missing_count / nRows` (division by zero yields 0, matching the spec's
"0 when total is 0"). -/
def summarizeColumn (nRows : Nat) (c : Column) : ColumnSummary :=
  { name := c.name
    is_numeric := c.isNumeric
    non_missing := c.nonMissing.length
    missing_count := c.missingCount
    missing_share := (c.missingCount : ℚ) / (nRows : ℚ)
    distinct := c.distinctCount
    zeros := c.zeroCount
    min := listMin c.numValues
    max := listMax c.numValues
    mean := listMean c.numValues }

/-- Modelled from the spec (section 3): row count, column count, ordered
column summaries. -/
structure DatasetSummary where
  n_rows : Nat
  n_cols : Nat
  columns : List ColumnSummary
deriving DecidableEq

/-- Modelled from the spec (section 4.1): the Summarizer.  Total over any
table; an empty table yields `n_rows = 0`, `n_cols = 0` and no columns. -/
def summarize_dataset (t : Table) : DatasetSummary :=
  { n_rows := t.nRows
    n_cols := t.cols.length
    columns := t.cols.map (summarizeColumn t.nRows) }

/-- One row of the missing-value table (section 3: column name mapped to
missing count and missing share). -/
structure MissingEntry where
  name : String
  missing_count : Nat
  missing_share : ℚ
deriving DecidableEq

/-- Modelled from the spec (section 4.2): the Missing-Value Analyzer.  An
empty table yields an empty result, not an error. -/
def missing_table (t : Table) : List MissingEntry :=
  t.cols.map (fun c =>
    { name := c.name
      missing_count := c.missingCount
      missing_share := (c.missingCount : ℚ) / (t.nRows : ℚ) })

/-- Modelled from the spec (sections 4.5 and 9): all heuristic thresholds are
named configuration values with the documented defaults. -/
structure QualityConfig where
  min_rows : Nat := 10
  max_cols : Nat := 100
  max_missing_threshold : ℚ := 1/2
  high_card_base : ℚ := 5
  high_card_frac : ℚ := 1/20
  id_close_frac : ℚ := 9/10
  zero_share_threshold : ℚ := 4/5
  flag_penalty : ℚ := 1/10
deriving DecidableEq

/-- Modelled from the spec (section 4.5): row-count-scaled cardinality
threshold, `max(5, row_count × 0.05)` for `row_count ≤ 100`; the same formula
is the documented monotone extension beyond 100 rows (section 9 leaves the
`> 100` case to the implementer; for `row_count > 100` it is a higher bound
derived from the row count). -/
def highCardThreshold (cfg : QualityConfig) (nRows : Nat) : ℚ :=
  max cfg.high_card_base (cfg.high_card_frac * (nRows : ℚ))

/-- Case-insensitive test for the identifier pattern: the name contains
"id" (section 4.5). -/
def nameLooksLikeId (s : String) : Bool :=
  (s.toLower.splitOn ("id")).length > 1

/-- Evidence entry for the id-duplicates heuristic. -/
structure IdDupInfo where
  name : String
  duplicate_rate : ℚ
deriving DecidableEq

/-- Evidence entry for the high-cardinality heuristic. -/
structure HighCardInfo where
  name : String
  unique : Nat
deriving DecidableEq

/-- Evidence entry for the many-zero-values heuristic. -/
structure ZeroInfo where
  name : String
  zero_share : ℚ
deriving DecidableEq

/-- Modelled from the spec (section 3): boolean quality flags with their
evidence lists, plus the scalar quality score and the maximum missing share
(the latter is read by the report writer in `cli.py`). -/
structure QualityFlags where
  too_few_rows : Bool
  too_many_columns : Bool
  max_missing_share : ℚ
  too_many_missing : Bool
  constant_columns : List String
  has_constant_columns : Bool
  id_duplicates_info : List IdDupInfo
  has_suspicious_id_duplicates : Bool
  high_cardinality_columns : List HighCardInfo
  has_high_cardinality_categoricals : Bool
  many_zero_columns : List ZeroInfo
  has_many_zero_values : Bool
  quality_score : ℚ
deriving DecidableEq

/-- Number of `true` entries in a list of booleans. -/
def boolCount (bs : List Bool) : Nat :=
  bs.countP id

/-- The seven flag categories of a `QualityFlags` record, in spec order. -/
def QualityFlags.flagList (f : QualityFlags) : List Bool :=
  [f.too_few_rows, f.too_many_columns, f.too_many_missing,
   f.has_constant_columns, f.has_suspicious_id_duplicates,
   f.has_high_cardinality_categoricals, f.has_many_zero_values]

/-- Number of triggered flag categories. -/
def QualityFlags.triggeredCount (f : QualityFlags) : Nat :=
  boolCount f.flagList

/-- Modelled from the spec (section 4.5): the Quality Heuristics Engine with
explicit configuration.  Each rule is evaluated independently; the score
starts at 1, loses one fixed penalty per triggered flag category and is
clamped at 0.  The maximum over an empty missing table is 0 (section 4.5 edge
case).  "Close to row count" in the id rule is modelled as
`distinct ≥ id_close_frac × n_rows`. -/
def compute_quality_flags_with (cfg : QualityConfig) (s : DatasetSummary)
    (m : List MissingEntry) : QualityFlags :=
  let tooFew : Bool := s.n_rows < cfg.min_rows
  let tooManyCols : Bool := s.n_cols > cfg.max_cols
  let maxMissing : ℚ := m.foldr (fun e acc => max e.missing_share acc) 0
  let tooManyMissing : Bool := maxMissing > cfg.max_missing_threshold
  let constCols : List String :=
    (s.columns.filter (fun c => c.distinct == 1 && c.non_missing ≥ 1)).map
      (fun c => c.name)
  let idCols : List IdDupInfo :=
    ((s.columns.filter (fun c =>
        (nameLooksLikeId c.name ||
          (c.distinct : ℚ) ≥ cfg.id_close_frac * (s.n_rows : ℚ)))).map
      (fun c => { name := c.name
                  duplicate_rate := 1 - (c.distinct : ℚ) / (c.non_missing : ℚ) })).filter
      (fun e => e.duplicate_rate > 0)
  let highCardCols : List HighCardInfo :=
    (s.columns.filter (fun c =>
        !c.is_numeric && (c.distinct : ℚ) > highCardThreshold cfg s.n_rows)).map
      (fun c => { name := c.name, unique := c.distinct })
  let zeroCols : List ZeroInfo :=
    ((s.columns.filter (fun c => c.is_numeric)).map
      (fun c => { name := c.name
                  zero_share := (c.zeros : ℚ) / (c.non_missing : ℚ) })).filter
      (fun e => e.zero_share ≥ cfg.zero_share_threshold)
  let flags : List Bool :=
    [tooFew, tooManyCols, tooManyMissing, !constCols.isEmpty, !idCols.isEmpty,
     !highCardCols.isEmpty, !zeroCols.isEmpty]
  { too_few_rows := tooFew
    too_many_columns := tooManyCols
    max_missing_share := maxMissing
    too_many_missing := tooManyMissing
    constant_columns := constCols
    has_constant_columns := !constCols.isEmpty
    id_duplicates_info := idCols
    has_suspicious_id_duplicates := !idCols.isEmpty
    high_cardinality_columns := highCardCols
    has_high_cardinality_categoricals := !highCardCols.isEmpty
    many_zero_columns := zeroCols
    has_many_zero_values := !zeroCols.isEmpty
    quality_score := max 0 (1 - cfg.flag_penalty * (boolCount flags : ℚ)) }

/-- Modelled from the spec: the engine as called by `cli.py`
(`compute_quality_flags(summary, missing_df)`), using the documented default
thresholds. -/
def compute_quality_flags (s : DatasetSummary) (m : List MissingEntry) :
    QualityFlags :=
  compute_quality_flags_with {} s m

/-- One row of a CategoryTable (section 3): a value with its occurrence count
and its share of the column's non-missing values. -/
structure CatEntry where
  value : Val
  count : Nat
  share : ℚ
deriving DecidableEq

/-- Insert an entry into a count-descending list: walk past the entries with
a strictly greater count and place it before the first entry whose count is
not greater — in particular, before every entry of equal count already in
the list. -/
def insertByCount (e : CatEntry) : List CatEntry → List CatEntry
  | [] => [e]
  | f :: fs => if e.count < f.count then f :: insertByCount e fs else e :: f :: fs

/-- Insertion sort by count, descending.  Each element is inserted before
the already-sorted ties coming from later input positions, so tied counts
stay in input order — a stable sort (section 3: "ties broken by
first-encountered order to keep the result deterministic"). -/
def sortByCountDesc : List CatEntry → List CatEntry
  | [] => []
  | e :: es => insertByCount e (sortByCountDesc es)

/-- Modelled from the spec (section 4.4): the count entries of one column,
one per distinct non-missing value, in first-encountered order of the
values, with `share = count / non-missing count`. -/
def categoryEntries (c : Column) : List CatEntry :=
  (uniqueInOrder c.nonMissing).map (fun v =>
    { value := v
      count := c.nonMissing.count v
      share := (c.nonMissing.count v : ℚ) / (c.nonMissing.length : ℚ) })

/-- Modelled from the spec (section 4.4): the CategoryTable of one column —
occurrences of each distinct non-missing value (missing values excluded),
sorted descending by count with ties kept in first-encountered order, then
truncated to `top_k`.  A column with zero non-missing values yields an empty
table. -/
def categoryTable (c : Column) (top_k : Nat) : List CatEntry :=
  (sortByCountDesc (categoryEntries c)).take top_k

/-- Modelled from the spec (section 4.4): the Category Profiler — the first
`max_columns` non-numeric columns in table order, each mapped to its
CategoryTable. -/
def top_categories (t : Table) (max_columns top_k : Nat) :
    List (String × List CatEntry) :=
  ((t.cols.filter (fun c => !c.isNumeric)).take max_columns).map
    (fun c => (c.name, categoryTable c top_k))

/-- A pairwise-complete observation: both cells present and numeric. -/
def pairObs : Cell × Cell → Option (ℚ × ℚ)
  | (some (.num x), some (.num y)) => some (x, y)
  | _ => none

/-- Modelled from the spec (section 4.3): pairwise-complete observations of
two columns — rows where either value is missing are excluded from the
pair's computation only. -/
def pairwiseObs (c₁ c₂ : Column) : List (ℚ × ℚ) :=
  (c₁.cells.zip c₂.cells).filterMap pairObs

def meanFst (l : List (ℚ × ℚ)) : ℚ :=
  (l.map Prod.fst).sum / (l.length : ℚ)

def meanSnd (l : List (ℚ × ℚ)) : ℚ :=
  (l.map Prod.snd).sum / (l.length : ℚ)

/-- Centered sum of squares of the first coordinates. -/
def sxx (l : List (ℚ × ℚ)) : ℚ :=
  (l.map (fun p => (p.1 - meanFst l) ^ 2)).sum

/-- Centered sum of squares of the second coordinates. -/
def syy (l : List (ℚ × ℚ)) : ℚ :=
  (l.map (fun p => (p.2 - meanSnd l) ^ 2)).sum

/-- Centered sum of products. -/
def sxy (l : List (ℚ × ℚ)) : ℚ :=
  (l.map (fun p => (p.1 - meanFst l) * (p.2 - meanSnd l))).sum

/-- Pearson correlation coefficient of a list of paired observations
(0 when either variance vanishes, by division by zero). -/
noncomputable def pearson (l : List (ℚ × ℚ)) : ℝ :=
  ((sxy l : ℚ) : ℝ) / (Real.sqrt ((sxx l : ℚ) : ℝ) * Real.sqrt ((syy l : ℚ) : ℝ))

/-- The columns inferred as numeric, in table order. -/
def numericColumns (t : Table) : List Column :=
  t.cols.filter Column.isNumeric

/-- Modelled from the spec (section 4.3): the Correlation Engine.  Fewer than
two numeric columns yield an empty matrix (not an error); otherwise entry
`(i, j)` is 1 on the diagonal and the pairwise Pearson correlation over
pairwise-complete observations off it. -/
noncomputable def correlation_matrix (t : Table) : List (List ℝ) :=
  let cs := numericColumns t
  if cs.length < 2 then []
  else
    (List.range cs.length).map (fun i =>
      (List.range cs.length).map (fun j =>
        if i = j then (1 : ℝ)
        else pearson (pairwiseObs (cs.getD i ⟨"", []⟩) (cs.getD j ⟨"", []⟩))))

/-- Entry `(i, j)` of the correlation matrix, 0 outside its bounds. -/
noncomputable def corrEntry (t : Table) (i j : Nat) : ℝ :=
  ((correlation_matrix t).getD i []).getD j 0

/-! ## The CLI layer, embedded from `cli.py` -/

/-- Outcome of the CLI loader: a parsed table, or the user-facing
`typer.BadParameter` error with its message. -/
inductive LoadResult where
  | ok (t : Table)
  | badParameter (msg : String)
deriving DecidableEq

def LoadResult.isBad : LoadResult → Bool
  | .ok _ => false
  | .badParameter _ => true

/-- Embedded from `_load_csv` in `cli.py`: the filesystem is abstracted by
whether the path exists, and `pd.read_csv` by its outcome (a table, or a
parse failure carrying the exception text).  A missing path or a parse
failure each raise a single `BadParameter`; the parse-failure message embeds
the underlying cause. -/
def load_csv (pathName : String) (pathExists : Bool)
    (parsed : Except String Table) : LoadResult :=
  if !pathExists then
    .badParameter ("Файл \x27" ++ pathName ++ "\x27 не найден")
  else
    match parsed with
    | .ok t => .ok t
    | .error exc => .badParameter ("Не удалось прочитать CSV: " ++ exc)

/-- Embedded from the `head` command in `cli.py`: the requested row count is
clamped to the available row count when it exceeds it. -/
def headClamp (n nRows : Nat) : Nat :=
  if n > nRows then nRows else n

/-- Embedded from the `head` command in `cli.py`: the displayed preview is
`df.head(n)` after the clamp — the first `headClamp n` rows of every
column. -/
def Table.headTable (t : Table) (n : Nat) : Table :=
  ⟨t.cols.map (fun c => ⟨c.name, c.cells.take (headClamp n t.nRows)⟩)⟩

/-- Embedded from the `report` command's option list in `cli.py` (lines
93-101), with the documented defaults. -/
structure ReportOptions where
  out_dir : String := "reports"
  sep : String := ","
  encoding : String := "utf-8"
  max_hist_columns : Nat := 6
  top_k_categories : Nat := 5
  title : String := "EDA-отчёт"
  min_missing_share : ℚ := 1/10
deriving DecidableEq

/-- Embedded from `cli.py` line 121: the `max_columns` argument `report`
passes to `top_categories` is the literal `20`, whatever options the caller
supplied. -/
def reportTopCategoriesMaxColumns (_ : ReportOptions) : Nat := 20

/-- Embedded from `cli.py` line 121: the `top_k` argument `report` passes to
`top_categories` comes from the `--top-k-categories` option. -/
def reportTopCategoriesTopK (o : ReportOptions) : Nat :=
  o.top_k_categories

/-- Embedded from `cli.py` line 202: the histogram cap passed to the chart
renderer comes from the `--max-hist-columns` option. -/
def reportMaxHistColumns (o : ReportOptions) : Nat :=
  o.max_hist_columns

/-- Embedded from `cli.py` line 127: the problematic-column threshold comes
from the `--min-missing-share` option. -/
def reportMinMissingShare (o : ReportOptions) : ℚ :=
  o.min_missing_share

/-- The externally observable steps of the `report` command, in program
order (`cli.py` lines 111-204). -/
inductive ReportStep where
  | mkdirOutDir
  | loadInput
  | writeSummary
  | writeMissing
  | writeCorrelation
  | writeTopCategories
  | writeMarkdown
  | plotHistograms
  | plotMissingMatrix
  | plotCorrelationHeatmap
deriving DecidableEq

/-- Whether a step writes a report artifact (table, markdown or image). -/
def ReportStep.isArtifactWrite : ReportStep → Bool
  | .mkdirOutDir => false
  | .loadInput => false
  | _ => true

/-- Embedded from the `report` command body: the output directory is created
first (line 112), the input is loaded second (line 114), and every artifact
write and chart render comes after; `missing.csv` and `correlation.csv` are
written only when the corresponding tables are non-empty. -/
def reportTrace (missingNonempty corrNonempty : Bool) : List ReportStep :=
  [.mkdirOutDir, .loadInput, .writeSummary]
    ++ (if missingNonempty then [.writeMissing] else [])
    ++ (if corrNonempty then [.writeCorrelation] else [])
    ++ [.writeTopCategories, .writeMarkdown, .plotHistograms,
        .plotMissingMatrix, .plotCorrelationHeatmap]

/-- The filesystem effects `report` can have: whether the output directory
exists, and which artifacts have been written into it. -/
structure FsState where
  outDirExists : Bool
  artifacts : List ReportStep
deriving DecidableEq

/-- Effect of one report step on the filesystem.  `mkdir(parents=True,
exist_ok=True)` tolerates pre-existence, so it is idempotent; loading reads
only. -/
def applyStep (s : FsState) (e : ReportStep) : FsState :=
  match e with
  | .mkdirOutDir => { s with outDirExists := true }
  | .loadInput => s
  | e => { s with artifacts := s.artifacts ++ [e] }

/-- The steps `report` completes when `_load_csv` raises: everything
strictly before `loadInput` in the trace (the exception aborts the
command). -/
def stepsBeforeLoad (missingNonempty corrNonempty : Bool) : List ReportStep :=
  (reportTrace missingNonempty corrNonempty).takeWhile
    (fun e => e ≠ ReportStep.loadInput)

/-- Filesystem state after an invocation of `report` whose input load
fails. -/
def stateAfterLoadFailure (init : FsState) (missingNonempty corrNonempty : Bool) :
    FsState :=
  (stepsBeforeLoad missingNonempty corrNonempty).foldl applyStep init

/-! ## Concrete tables used by the scenarios of the spec and tests -/

/-- The empty table (zero rows, zero columns). -/
def emptyTable : Table := ⟨[]⟩

/-- The `age` column of the basic scenario (section 8): `[10,20,30,None]`. -/
def ageColumn : Column :=
  ⟨"age", [some (.num 10), some (.num 20), some (.num 30), none]⟩

/-- The `height` column of the basic scenario: `[140,150,160,170]`. -/
def heightColumn : Column :=
  ⟨"height", [some (.num 140), some (.num 150), some (.num 160), some (.num 170)]⟩

/-- The `city` column of the basic scenario: `["A","B","A",None]`. -/
def cityColumn : Column :=
  ⟨"city", [some (.str ("A")), some (.str ("B")), some (.str ("A")), none]⟩

/-- The basic scenario table of section 8 (`_sample_df` of the tests). -/
def sampleTable : Table :=
  ⟨[ageColumn, heightColumn, cityColumn]⟩

/-- A table whose only column is categorical, so fewer than two numeric
columns exist. -/
def cityOnlyTable : Table := ⟨[cityColumn]⟩

/-- The clean-data scenario (section 8): 100 rows, `id` with 100 unique
numbers, `value` with 100 unique numbers, `category` cycling through 5
values. -/
def cleanTable : Table :=
  ⟨[⟨"id", (List.range 100).map (fun i => some (.num ((i : ℚ) + 1)))⟩,
    ⟨"value", (List.range 100).map (fun i => some (.num (10 * ((i : ℚ) + 1))))⟩,
    ⟨"category", (List.range 100).map (fun i =>
      some (.str (["A", "B", "C", "D", "E"].getD (i % 5) "A")))⟩]⟩

/-- The mixed scenario (section 8): 10 rows; only `status` is constant. -/
def mixedTable : Table :=
  ⟨[⟨"user_id", (List.range 10).map (fun i => some (.num ((i : ℚ) + 1)))⟩,
    ⟨"status", (List.range 10).map (fun _ => some (.str ("active")))⟩,
    ⟨"score", (List.range 10).map (fun i => some (.num ((i : ℚ) + 85)))⟩,
    ⟨"category", ["A", "A", "B", "B", "C", "C", "D", "D", "A", "B"].map
      (fun s => some (.str s))⟩,
    ⟨"zero_col", ([0, 0, 1, 2, 3, 0, 1, 2, 0, 3] : List ℚ).map
      (fun q => some (.num q))⟩]⟩

/-- A two-row categorical column whose two values are tied with count 1,
"X" encountered before "Y" — the tie-break scenario of the category
profiler. -/
def tieColumn : Column :=
  ⟨"tie", [some (.str ("X")), some (.str ("Y"))]⟩

/-- A 5-row table with a categorical column of 5 distinct values — the
boundary case of the cardinality threshold. -/
def fiveRowNameTable : Table :=
  ⟨[⟨"name", ["User_0", "User_1", "User_2", "User_3", "User_4"].map
      (fun s => some (.str s))⟩]⟩

/-! ## Helper lemmas -/

/-- Shape of the quality score as a function of the number of triggered flag
categories, at the default penalty of `1/10`. -/
lemma score_shape (n : Nat) :
    0 ≤ max (0 : ℚ) (1 - 1/10 * (n : ℚ))
    ∧ max (0 : ℚ) (1 - 1/10 * (n : ℚ)) ≤ 1
    ∧ (max (0 : ℚ) (1 - 1/10 * (n : ℚ)) = 1 ↔ n = 0)
    ∧ (max (0 : ℚ) (1 - 1/10 * (n : ℚ)) < 1 ↔ 0 < n) := by
  have hn : (0 : ℚ) ≤ (n : ℚ) := Nat.cast_nonneg n
  refine ⟨le_max_left _ _, max_le (by norm_num) (by linarith), ?_⟩
  rcases Nat.eq_zero_or_pos n with h | h
  · subst h
    norm_num
  · have hq : (0 : ℚ) < (n : ℚ) := by exact_mod_cast h
    have hlt : max (0 : ℚ) (1 - 1/10 * (n : ℚ)) < 1 :=
      max_lt (by norm_num) (by linarith)
    exact ⟨⟨fun he => absurd he hlt.ne, fun he => absurd he h.ne'⟩,
      ⟨fun _ => h, fun _ => hlt⟩⟩

lemma mem_insertByCount {x e : CatEntry} {l : List CatEntry} :
    x ∈ insertByCount e l ↔ x = e ∨ x ∈ l := by
  induction l with
  | nil => simp [insertByCount]
  | cons f fs ih =>
      simp only [insertByCount]
      split
      · simp only [List.mem_cons, ih]
        tauto
      · simp [List.mem_cons]

lemma mem_sortByCountDesc {x : CatEntry} {l : List CatEntry} :
    x ∈ sortByCountDesc l ↔ x ∈ l := by
  induction l with
  | nil => simp [sortByCountDesc]
  | cons e es ih => simp [sortByCountDesc, mem_insertByCount, ih]

/-- Inserting `e` into a list that is count-descending and tie-consistent
with `T` keeps it so, provided `e` is `T`-before every tied element of the
list (which holds when those elements come from later input positions). -/
lemma insertByCount_pairwise_tie {T : CatEntry → CatEntry → Prop} {e : CatEntry}
    {m : List CatEntry}
    (hm : List.Pairwise (fun a b => b.count ≤ a.count ∧ (a.count = b.count → T a b)) m)
    (he : ∀ x ∈ m, e.count = x.count → T e x) :
    List.Pairwise (fun a b => b.count ≤ a.count ∧ (a.count = b.count → T a b))
      (insertByCount e m) := by
  induction m with
  | nil => simp [insertByCount]
  | cons f fs ih =>
      rcases List.pairwise_cons.mp hm with ⟨hf, hfs⟩
      simp only [insertByCount]
      split
      · rename_i hlt
        refine List.pairwise_cons.mpr
          ⟨?_, ih hfs (fun x hx => he x (List.mem_cons_of_mem f hx))⟩
        intro x hx
        rcases mem_insertByCount.mp hx with rfl | hx
        · exact ⟨le_of_lt hlt, fun hc => absurd hc (by omega)⟩
        · exact hf x hx
      · rename_i hge
        refine List.pairwise_cons.mpr ⟨?_, hm⟩
        intro x hx
        rcases List.mem_cons.mp hx with rfl | hx
        · exact ⟨Nat.le_of_not_lt hge, he _ (List.mem_cons_self _ _)⟩
        · exact ⟨le_trans (hf x hx).1 (Nat.le_of_not_lt hge),
            he x (List.mem_cons_of_mem f hx)⟩

/-- The insertion sort is a stable descending sort: its output is pairwise
count-descending, and tied entries stay in the `T`-order they had in the
input (for any relation `T` holding along the input order). -/
lemma sortByCountDesc_pairwise_tie {T : CatEntry → CatEntry → Prop}
    (l : List CatEntry)
    (hl : List.Pairwise (fun a b => a.count = b.count → T a b) l) :
    List.Pairwise (fun a b => b.count ≤ a.count ∧ (a.count = b.count → T a b))
      (sortByCountDesc l) := by
  induction l with
  | nil => simp [sortByCountDesc]
  | cons e es ih =>
      rcases List.pairwise_cons.mp hl with ⟨he, hes⟩
      exact insertByCount_pairwise_tie (ih hes)
        (fun x hx => he x (mem_sortByCountDesc.mp hx))

lemma mem_uniqueAux {α : Type} [DecidableEq α] {x : α} :
    ∀ {l seen : List α}, x ∈ uniqueAux l seen → x ∈ l := by
  intro l
  induction l with
  | nil => intro seen h; simp [uniqueAux] at h
  | cons v vs ih =>
      intro seen h
      simp only [uniqueAux] at h
      split at h
      · exact List.mem_cons_of_mem _ (ih h)
      · rcases List.mem_cons.mp h with h' | h'
        · subst h'
          exact List.mem_cons_self _ _
        · exact List.mem_cons_of_mem _ (ih h')

lemma pairObs_swap (p : Cell × Cell) :
    pairObs (Prod.swap p) = (pairObs p).map Prod.swap := by
  rcases p with ⟨a, b⟩
  rcases a with _ | av <;> rcases b with _ | bv
  · rfl
  · cases bv <;> rfl
  · cases av <;> rfl
  · cases av <;> cases bv <;> rfl

lemma pairwiseObs_comm (c₁ c₂ : Column) :
    pairwiseObs c₂ c₁ = (pairwiseObs c₁ c₂).map Prod.swap := by
  unfold pairwiseObs
  rw [← List.zip_swap c₁.cells c₂.cells, List.filterMap_map, List.map_filterMap]
  have hf : (pairObs ∘ Prod.swap) = (fun x => (pairObs x).map Prod.swap) :=
    funext pairObs_swap
  rw [hf]

lemma map_swap_fst (l : List (ℚ × ℚ)) :
    (l.map Prod.swap).map Prod.fst = l.map Prod.snd := by
  simp [List.map_map, Function.comp_def]

lemma map_swap_snd (l : List (ℚ × ℚ)) :
    (l.map Prod.swap).map Prod.snd = l.map Prod.fst := by
  simp [List.map_map, Function.comp_def]

lemma meanFst_swap (l : List (ℚ × ℚ)) : meanFst (l.map Prod.swap) = meanSnd l := by
  unfold meanFst meanSnd
  rw [map_swap_fst, List.length_map]

lemma meanSnd_swap (l : List (ℚ × ℚ)) : meanSnd (l.map Prod.swap) = meanFst l := by
  unfold meanFst meanSnd
  rw [map_swap_snd, List.length_map]

lemma sxx_swap (l : List (ℚ × ℚ)) : sxx (l.map Prod.swap) = syy l := by
  unfold sxx syy
  rw [meanFst_swap, List.map_map]
  exact rfl

lemma syy_swap (l : List (ℚ × ℚ)) : syy (l.map Prod.swap) = sxx l := by
  unfold sxx syy
  rw [meanSnd_swap, List.map_map]
  exact rfl

lemma sxy_swap (l : List (ℚ × ℚ)) : sxy (l.map Prod.swap) = sxy l := by
  unfold sxy
  rw [meanFst_swap, meanSnd_swap, List.map_map]
  have hfun : ((fun p : ℚ × ℚ => (p.1 - meanSnd l) * (p.2 - meanFst l)) ∘ Prod.swap)
      = (fun p : ℚ × ℚ => (p.1 - meanFst l) * (p.2 - meanSnd l)) := by
    funext p
    simp only [Function.comp_apply, Prod.fst_swap, Prod.snd_swap]
    ring
  rw [hfun]

lemma pearson_swap (l : List (ℚ × ℚ)) : pearson (l.map Prod.swap) = pearson l := by
  unfold pearson
  rw [sxx_swap, syy_swap, sxy_swap, mul_comm]

lemma listMapSum (l : List (ℚ × ℚ)) (f : (ℚ × ℚ) → ℚ) :
    (l.map f).sum = ∑ i : Fin l.length, f (l.get i) := by
  conv_lhs => rw [← List.ofFn_get l]
  rw [List.map_ofFn, List.sum_ofFn]
  rfl

lemma sq_sxy_le (l : List (ℚ × ℚ)) : (sxy l) ^ 2 ≤ sxx l * syy l := by
  unfold sxy sxx syy
  rw [listMapSum l (fun p => (p.1 - meanFst l) * (p.2 - meanSnd l)),
    listMapSum l (fun p => (p.1 - meanFst l) ^ 2),
    listMapSum l (fun p => (p.2 - meanSnd l) ^ 2)]
  exact Finset.sum_mul_sq_le_sq_mul_sq Finset.univ
    (fun i => (l.get i).1 - meanFst l) (fun i => (l.get i).2 - meanSnd l)

lemma sxx_nonneg (l : List (ℚ × ℚ)) : 0 ≤ sxx l := by
  refine List.sum_nonneg ?_
  intro x hx
  rcases List.mem_map.mp hx with ⟨p, _, rfl⟩
  positivity

lemma syy_nonneg (l : List (ℚ × ℚ)) : 0 ≤ syy l := by
  refine List.sum_nonneg ?_
  intro x hx
  rcases List.mem_map.mp hx with ⟨p, _, rfl⟩
  positivity

lemma pearson_bounds (l : List (ℚ × ℚ)) : -1 ≤ pearson l ∧ pearson l ≤ 1 := by
  unfold pearson
  have ha : (0 : ℝ) ≤ ((sxx l : ℚ) : ℝ) := by exact_mod_cast sxx_nonneg l
  have hb : (0 : ℝ) ≤ ((syy l : ℚ) : ℝ) := by exact_mod_cast syy_nonneg l
  have hq : ((sxy l : ℚ) : ℝ) ^ 2 ≤ ((sxx l : ℚ) : ℝ) * ((syy l : ℚ) : ℝ) := by
    exact_mod_cast sq_sxy_le l
  have habs : |((sxy l : ℚ) : ℝ)| ≤
      Real.sqrt ((sxx l : ℚ) : ℝ) * Real.sqrt ((syy l : ℚ) : ℝ) := by
    rw [← Real.sqrt_sq_eq_abs, ← Real.sqrt_mul ha]
    exact Real.sqrt_le_sqrt hq
  have hden : (0 : ℝ) ≤ Real.sqrt ((sxx l : ℚ) : ℝ) * Real.sqrt ((syy l : ℚ) : ℝ) :=
    mul_nonneg (Real.sqrt_nonneg _) (Real.sqrt_nonneg _)
  rcases eq_or_lt_of_le hden with h0 | h0
  · rw [← h0, div_zero]
    norm_num
  · have habs' : |((sxy l : ℚ) : ℝ) /
        (Real.sqrt ((sxx l : ℚ) : ℝ) * Real.sqrt ((syy l : ℚ) : ℝ))| ≤ 1 := by
      rw [abs_div, abs_of_pos h0]
      exact (div_le_one h0).mpr habs
    exact abs_le.mp habs'

lemma getD_map_range {β : Type} (f : Nat → β) (n i : Nat) (d : β) :
    ((List.range n).map f).getD i d = if i < n then f i else d := by
  by_cases h : i < n
  · simp [List.getD_eq_getElem?_getD, List.getElem?_map, List.getElem?_range h, h]
  · rw [List.getD_eq_getElem?_getD, List.getElem?_map, if_neg h,
      List.getElem?_eq_none (by simpa using Nat.le_of_not_lt h)]
    rfl

/-- Characterization of a correlation-matrix entry: 0 outside the matrix,
1 on the diagonal, Pearson over pairwise-complete observations off it. -/
lemma corrEntry_eq (t : Table) (i j : Nat) :
    corrEntry t i j =
      if 2 ≤ (numericColumns t).length ∧ i < (numericColumns t).length
          ∧ j < (numericColumns t).length then
        (if i = j then (1 : ℝ)
         else pearson (pairwiseObs ((numericColumns t).getD i ⟨"", []⟩)
            ((numericColumns t).getD j ⟨"", []⟩)))
      else 0 := by
  simp only [corrEntry, correlation_matrix]
  by_cases h2 : (numericColumns t).length < 2
  · rw [if_pos h2, if_neg (by omega)]
    simp [List.getD]
  · rw [if_neg h2, getD_map_range]
    by_cases hi : i < (numericColumns t).length
    · rw [if_pos hi, getD_map_range]
      by_cases hj : j < (numericColumns t).length
      · have hcond : 2 ≤ (numericColumns t).length ∧ i < (numericColumns t).length
            ∧ j < (numericColumns t).length := ⟨Nat.le_of_not_lt h2, hi, hj⟩
        rw [if_pos hj, if_pos hcond]
      · rw [if_neg hj, if_neg (by tauto)]
    · rw [if_neg hi, if_neg (by tauto)]
      simp [List.getD]

/-! ## Claim theorems -/

/-- C1: for every `DatasetSummary` and `MissingTable`, `compute_quality_flags`
returns a `quality_score` in `[0, 1]`; the score is
`max 0 (1 - penalty · triggeredCount)` (one fixed penalty per triggered flag
category, clamped at 0), equals 1 exactly when no flag category is triggered,
is strictly below 1 exactly when at least one is, and on the clean 100-row
scenario (id: 100 uniques, value: 100 uniques, category: 5 uniques) exceeds
0.7. -/
theorem quality_score_spec :
    (∀ (s : DatasetSummary) (m : List MissingEntry),
        0 ≤ (compute_quality_flags s m).quality_score
        ∧ (compute_quality_flags s m).quality_score ≤ 1
        ∧ (compute_quality_flags s m).quality_score =
            max 0 (1 - 1/10 * ((compute_quality_flags s m).triggeredCount : ℚ))
        ∧ ((compute_quality_flags s m).quality_score = 1 ↔
            (compute_quality_flags s m).triggeredCount = 0)
        ∧ ((compute_quality_flags s m).quality_score < 1 ↔
            0 < (compute_quality_flags s m).triggeredCount))
    ∧ (compute_quality_flags (summarize_dataset cleanTable)
        (missing_table cleanTable)).quality_score > 7/10 := by
  constructor
  · intro s m
    have hs : (compute_quality_flags s m).quality_score =
        max 0 (1 - 1/10 * ((compute_quality_flags s m).triggeredCount : ℚ)) := by
      simp [compute_quality_flags, compute_quality_flags_with,
        QualityFlags.triggeredCount, QualityFlags.flagList]
    rw [hs]
    obtain ⟨h1, h2, h3, h4⟩ := score_shape ((compute_quality_flags s m).triggeredCount)
    exact ⟨h1, h2, rfl, h3, h4⟩
  · with_unfolding_all decide

/-- C2: the analytical functions are total (they are Lean functions) and
return empty or neutral results on degenerate input: the empty table yields
row count 0, column count 0 and no column summaries, an empty missing table,
an empty correlation matrix and no category tables; and the quality engine
treats the maximum over an empty missing table as 0, so `too_many_missing`
is false there for every summary. -/
theorem degenerate_inputs_spec :
    summarize_dataset emptyTable = ⟨0, 0, []⟩
    ∧ missing_table emptyTable = []
    ∧ correlation_matrix emptyTable = []
    ∧ (∀ mc tk : Nat, top_categories emptyTable mc tk = [])
    ∧ (∀ s : DatasetSummary,
        (compute_quality_flags s []).max_missing_share = 0
        ∧ (compute_quality_flags s []).too_many_missing = false) := by
  refine ⟨rfl, rfl, ?_, fun mc tk => ?_, fun s => ⟨?_, ?_⟩⟩
  · simp [correlation_matrix, numericColumns, emptyTable]
  · simp [top_categories, emptyTable]
  · simp [compute_quality_flags, compute_quality_flags_with]
  · norm_num [compute_quality_flags, compute_quality_flags_with]

/-- C9 (counterexample): the caller cannot override the category-profiler
column cap of `report` — even with every option field explicitly set, the
`max_columns` argument passed to `top_categories` is still the literal 20. -/
theorem report_max_columns_override_fails :
    reportTopCategoriesMaxColumns ⟨"reports", ",", "utf-8", 6, 999, "EDA-отчёт", 1/10⟩ = 20
    ∧ reportTopCategoriesMaxColumns ⟨"out", ";", "cp1251", 3, 7, "t", 1/5⟩ = 20 :=
  ⟨rfl, rfl⟩

/-- C9 (amended): the report thresholds `top_k_categories`,
`max_hist_columns` and `min_missing_share` are caller-configurable options
with the documented defaults (5, 6, 0.1), but the category-profiler column
cap is hard-coded to 20 for every invocation and cannot be overridden at
report time. -/
theorem report_thresholds_spec :
    (∀ o : ReportOptions, reportTopCategoriesMaxColumns o = 20)
    ∧ (∀ k : Nat, ∃ o : ReportOptions, reportTopCategoriesTopK o = k)
    ∧ (∀ k : Nat, ∃ o : ReportOptions, reportMaxHistColumns o = k)
    ∧ (∀ q : ℚ, ∃ o : ReportOptions, reportMinMissingShare o = q)
    ∧ reportTopCategoriesTopK {} = 5
    ∧ reportMaxHistColumns {} = 6
    ∧ reportMinMissingShare {} = 1/10 :=
  ⟨fun _ => rfl,
   fun k => ⟨⟨"reports", ",", "utf-8", 6, k, "EDA-отчёт", 1/10⟩, rfl⟩,
   fun k => ⟨⟨"reports", ",", "utf-8", k, 5, "EDA-отчёт", 1/10⟩, rfl⟩,
   fun q => ⟨⟨"reports", ",", "utf-8", 6, 5, "EDA-отчёт", q⟩, rfl⟩,
   rfl, rfl, rfl⟩

/-- C10: in `report`, the output directory is created before the input file
is loaded; when the load fails, the only completed step is the directory
creation, so the directory exists afterwards while no report artifact has
been written — `report` is not atomic with respect to load failure. -/
theorem report_not_atomic_on_load_failure (init : FsState) (mne cne : Bool) :
    (reportTrace mne cne).take 2 = [ReportStep.mkdirOutDir, ReportStep.loadInput]
    ∧ stepsBeforeLoad mne cne = [ReportStep.mkdirOutDir]
    ∧ (stateAfterLoadFailure init mne cne).outDirExists = true
    ∧ (stateAfterLoadFailure init mne cne).artifacts = init.artifacts
    ∧ (∀ e ∈ stepsBeforeLoad mne cne, e.isArtifactWrite = false) := by
  cases mne <;> cases cne <;>
    refine ⟨rfl, rfl, rfl, rfl, fun e he => ?_⟩ <;>
    · simp [stepsBeforeLoad, reportTrace] at he
      subst he
      rfl

/-- Every entry of the correlation matrix lies in `[-1, 1]`. -/
lemma corrEntry_bounds (t : Table) (i j : Nat) :
    -1 ≤ corrEntry t i j ∧ corrEntry t i j ≤ 1 := by
  rw [corrEntry_eq]
  split
  · split
    · norm_num
    · exact pearson_bounds _
  · norm_num

/-- C3: the correlation matrix is symmetric, every entry lies in `[-1, 1]`,
diagonal entries equal 1 for every numeric column, the matrix is empty (not
an error) when fewer than two numeric columns exist, and each off-diagonal
entry is the pairwise Pearson correlation over the pairwise-complete
observations of the two columns. -/
theorem correlation_matrix_spec (t : Table) (i j : Nat) :
    corrEntry t i j = corrEntry t j i
    ∧ -1 ≤ corrEntry t i j ∧ corrEntry t i j ≤ 1
    ∧ (2 ≤ (numericColumns t).length → i < (numericColumns t).length →
        corrEntry t i i = 1)
    ∧ ((numericColumns t).length < 2 → correlation_matrix t = [])
    ∧ (2 ≤ (numericColumns t).length → i < (numericColumns t).length →
        j < (numericColumns t).length → i ≠ j →
        corrEntry t i j = pearson (pairwiseObs
          ((numericColumns t).getD i ⟨"", []⟩)
          ((numericColumns t).getD j ⟨"", []⟩))) := by
  refine ⟨?_, (corrEntry_bounds t i j).1, (corrEntry_bounds t i j).2, ?_, ?_, ?_⟩
  · rw [corrEntry_eq, corrEntry_eq]
    by_cases hc : 2 ≤ (numericColumns t).length ∧ i < (numericColumns t).length
        ∧ j < (numericColumns t).length
    · have hc' : 2 ≤ (numericColumns t).length ∧ j < (numericColumns t).length
          ∧ i < (numericColumns t).length := ⟨hc.1, hc.2.2, hc.2.1⟩
      rw [if_pos hc, if_pos hc']
      by_cases hij : i = j
      · rw [if_pos hij, if_pos hij.symm]
      · rw [if_neg hij, if_neg (Ne.symm hij),
          pairwiseObs_comm ((numericColumns t).getD i ⟨"", []⟩)
            ((numericColumns t).getD j ⟨"", []⟩), pearson_swap]
    · rw [if_neg hc, if_neg (by tauto)]
  · intro h2 hi
    have hcond : 2 ≤ (numericColumns t).length ∧ i < (numericColumns t).length
        ∧ i < (numericColumns t).length := ⟨h2, hi, hi⟩
    rw [corrEntry_eq, if_pos hcond, if_pos rfl]
  · intro h
    simp only [correlation_matrix]
    rw [if_pos h]
  · intro h2 hi hj hij
    rw [corrEntry_eq, if_pos ⟨h2, hi, hj⟩, if_neg hij]

/-- Concrete instance of the C3 theorem at the basic-scenario table (numeric
columns `age` and `height`): the diagonal entry is 1, the off-diagonal entry
is the Pearson coefficient of the pairwise-complete observations, and the
one-categorical-column table yields an empty matrix. -/
theorem correlation_matrix_witness :
    corrEntry sampleTable 0 0 = 1
    ∧ corrEntry sampleTable 0 1 =
        pearson (pairwiseObs ((numericColumns sampleTable).getD 0 ⟨"", []⟩)
          ((numericColumns sampleTable).getD 1 ⟨"", []⟩))
    ∧ correlation_matrix cityOnlyTable = [] :=
  ⟨(correlation_matrix_spec sampleTable 0 0).2.2.2.1
      (by with_unfolding_all decide) (by with_unfolding_all decide),
   (correlation_matrix_spec sampleTable 0 1).2.2.2.2.2
      (by with_unfolding_all decide) (by with_unfolding_all decide)
      (by with_unfolding_all decide) (by decide),
   (correlation_matrix_spec cityOnlyTable 0 0).2.2.2.2.1
      (by with_unfolding_all decide)⟩

/-- C4 (counterexample): a categorical column with 5 distinct values in 5
rows does not exceed the threshold `max(5, 5 × 0.05) = 5` ("exceeds" is
strict), so no high-cardinality flag is raised — contradicting the claim
that 5 unique values out of 5 rows trigger the flag. -/
theorem high_cardinality_five_of_five_not_flagged :
    (compute_quality_flags (summarize_dataset fiveRowNameTable)
        (missing_table fiveRowNameTable)).has_high_cardinality_categoricals = false
    ∧ (compute_quality_flags (summarize_dataset fiveRowNameTable)
        (missing_table fiveRowNameTable)).high_cardinality_columns = [] := by
  with_unfolding_all decide

/-- C4 (amended): a categorical column is flagged as high-cardinality exactly
when its distinct-value count strictly exceeds `max(5, row_count × 0.05)`
(the same monotone formula extends past 100 rows); 5 uniques out of 100 rows
do NOT trigger the flag, and 5 uniques out of 5 rows do NOT trigger it
either; `has_high_cardinality_categoricals` holds iff the flagged list is
non-empty. -/
theorem high_cardinality_spec :
    (∀ (s : DatasetSummary) (m : List MissingEntry) (e : HighCardInfo),
        e ∈ (compute_quality_flags s m).high_cardinality_columns ↔
          ∃ c ∈ s.columns, c.is_numeric = false
            ∧ (c.distinct : ℚ) > highCardThreshold {} s.n_rows
            ∧ e = ⟨c.name, c.distinct⟩)
    ∧ (∀ n : Nat, highCardThreshold {} n = max 5 ((n : ℚ) * (5/100)))
    ∧ (∀ n : Nat, highCardThreshold {} n ≤ highCardThreshold {} (n + 1))
    ∧ (∀ (s : DatasetSummary) (m : List MissingEntry),
        (compute_quality_flags s m).has_high_cardinality_categoricals = true ↔
          (compute_quality_flags s m).high_cardinality_columns ≠ [])
    ∧ (compute_quality_flags (summarize_dataset cleanTable)
        (missing_table cleanTable)).has_high_cardinality_categoricals = false
    ∧ (compute_quality_flags (summarize_dataset fiveRowNameTable)
        (missing_table fiveRowNameTable)).high_cardinality_columns = [] := by
  refine ⟨?_, ?_, ?_, ?_, ?_, ?_⟩
  · intro s m e
    simp only [compute_quality_flags, compute_quality_flags_with,
      List.mem_map, List.mem_filter, Bool.and_eq_true, Bool.not_eq_true',
      decide_eq_true_eq]
    constructor
    · rintro ⟨c, ⟨hc, hnum, hth⟩, rfl⟩
      exact ⟨c, hc, hnum, hth, rfl⟩
    · rintro ⟨c, hc, hnum, hth, rfl⟩
      exact ⟨c, ⟨hc, hnum, hth⟩, rfl⟩
  · intro n
    unfold highCardThreshold
    norm_num [mul_comm]
  · intro n
    unfold highCardThreshold
    refine max_le_max le_rfl ?_
    have hc : ((n : ℚ)) ≤ ((n + 1 : Nat) : ℚ) := by push_cast; linarith
    exact mul_le_mul_of_nonneg_left hc (by norm_num)
  · intro s m
    simp [compute_quality_flags, compute_quality_flags_with, List.isEmpty_iff]
  · with_unfolding_all decide
  · with_unfolding_all decide

/-- C5: a column is listed in `constant_columns` exactly when its distinct
count (ignoring missing values) is 1 and it has at least one non-missing
value; `has_constant_columns` holds iff the list is non-empty; and on the
10-row mixed scenario the list is exactly `["status"]` with no other flag
category triggered. -/
theorem constant_columns_spec :
    (∀ (s : DatasetSummary) (m : List MissingEntry) (x : String),
        x ∈ (compute_quality_flags s m).constant_columns ↔
          ∃ c ∈ s.columns, c.name = x ∧ c.distinct = 1 ∧ 1 ≤ c.non_missing)
    ∧ (∀ (s : DatasetSummary) (m : List MissingEntry),
        (compute_quality_flags s m).has_constant_columns = true ↔
          (compute_quality_flags s m).constant_columns ≠ [])
    ∧ (compute_quality_flags (summarize_dataset mixedTable)
        (missing_table mixedTable)).constant_columns = ["status"]
    ∧ (compute_quality_flags (summarize_dataset mixedTable)
        (missing_table mixedTable)).flagList =
        [false, false, false, true, false, false, false] := by
  refine ⟨?_, ?_, ?_, ?_⟩
  · intro s m x
    simp only [compute_quality_flags, compute_quality_flags_with,
      List.mem_map, List.mem_filter, Bool.and_eq_true, beq_iff_eq,
      decide_eq_true_eq]
    constructor
    · rintro ⟨c, ⟨hc, hd, hn⟩, rfl⟩
      exact ⟨c, hc, rfl, hd, hn⟩
    · rintro ⟨c, hc, rfl, hd, hn⟩
      exact ⟨c, ⟨hc, hd, hn⟩, rfl⟩
  · intro s m
    simp [compute_quality_flags, compute_quality_flags_with, List.isEmpty_iff]
  · with_unfolding_all decide
  · with_unfolding_all decide

/-- C6: `top_categories` profiles the first `max_columns` non-numeric columns
in table order; every category table has at most `top_k` entries, is sorted
by count descending with ties kept in first-encountered order (tied entries
of the output form a sublist of `categoryEntries`, whose values are listed
in order of first occurrence — observable through truncation, as the
two-way-tie scenario shows), counts only non-missing values with
`share = count / non-missing count`, and a column without non-missing values
yields an empty table. -/
theorem top_categories_spec (t : Table) (mc tk : Nat) (c : Column) :
    top_categories t mc tk =
      ((t.cols.filter (fun c => !c.isNumeric)).take mc).map
        (fun c => (c.name, categoryTable c tk))
    ∧ (categoryEntries c).map (fun e => e.value) = uniqueInOrder c.nonMissing
    ∧ (categoryTable c tk).length ≤ tk
    ∧ List.Pairwise (fun a b => b.count ≤ a.count) (categoryTable c tk)
    ∧ List.Pairwise (fun a b => a.count = b.count →
        List.Sublist [a, b] (categoryEntries c)) (categoryTable c tk)
    ∧ (∀ e ∈ categoryTable c tk,
        e.count = c.nonMissing.count e.value
        ∧ e.share = (e.count : ℚ) / (c.nonMissing.length : ℚ)
        ∧ e.value ∈ c.nonMissing)
    ∧ (c.nonMissing = [] → categoryTable c tk = [])
    ∧ categoryTable tieColumn 1 = [⟨Val.str ("X"), 1, 1/2⟩]
    ∧ categoryTable tieColumn 2 =
        [⟨Val.str ("X"), 1, 1/2⟩, ⟨Val.str ("Y"), 1, 1/2⟩] := by
  have hinput : List.Pairwise (fun a b : CatEntry => a.count = b.count →
      List.Sublist [a, b] (categoryEntries c)) (categoryEntries c) := by
    have h0 : List.Pairwise (fun a b : CatEntry =>
        List.Sublist [a, b] (categoryEntries c)) (categoryEntries c) :=
      List.pairwise_iff_forall_sublist.mpr (fun h => h)
    exact List.Pairwise.imp
      (fun {a b} h => fun _ : a.count = b.count => h) h0
  have hsorted := List.Pairwise.sublist (List.take_sublist tk _)
    (sortByCountDesc_pairwise_tie (categoryEntries c) hinput)
  refine ⟨rfl, ?_, List.length_take_le _ _, hsorted.imp (fun h => h.1),
    hsorted.imp (fun h => h.2), ?_, ?_, ?_, ?_⟩
  · simp [categoryEntries, List.map_map, Function.comp_def]
  · intro e he
    have he₁ : e ∈ sortByCountDesc _ := List.take_subset _ _ he
    have he₂ := mem_sortByCountDesc.mp he₁
    simp only [categoryEntries] at he₂
    rcases List.mem_map.mp he₂ with ⟨v, hv, rfl⟩
    exact ⟨rfl, rfl, mem_uniqueAux hv⟩
  · intro h
    simp [categoryTable, categoryEntries, h, uniqueInOrder, uniqueAux,
      sortByCountDesc]
  · with_unfolding_all decide
  · with_unfolding_all decide

/-- Concrete instance of the C6 theorem at the basic-scenario `city` column
with `top_k = 2`: the entry for value "A" has count 2 (the missing cell is
not counted), its share is `2 / 3` of the non-missing values, "A" occurs in
the column, and a column with no non-missing values yields an empty table. -/
theorem top_categories_witness :
    (2 = cityColumn.nonMissing.count (Val.str ("A"))
      ∧ (2/3 : ℚ) = ((2 : Nat) : ℚ) / (cityColumn.nonMissing.length : ℚ)
      ∧ Val.str ("A") ∈ cityColumn.nonMissing)
    ∧ categoryTable ⟨"empty", []⟩ 2 = [] :=
  ⟨(top_categories_spec sampleTable 5 2 cityColumn).2.2.2.2.2.1
      ⟨Val.str ("A"), 2, 2/3⟩ (by with_unfolding_all decide),
   (top_categories_spec sampleTable 5 2 ⟨"empty", []⟩).2.2.2.2.2.2.1 rfl⟩

/-- C7: `_load_csv` fails exactly when the path does not exist or parsing
fails; both failures surface as a single `BadParameter` error, the
parse-failure message embedding the underlying cause; for an existing,
parseable file the parsed table is returned unchanged. -/
theorem load_csv_spec (name exc : String) (ex : Bool)
    (parsed : Except String Table) :
    ((load_csv name ex parsed).isBad = true ↔
      ex = false ∨ ∃ e, parsed = Except.error e)
    ∧ (∀ t : Table, ex = true → parsed = Except.ok t →
        load_csv name ex parsed = LoadResult.ok t)
    ∧ (ex = true → parsed = Except.error exc →
        ∃ pre post : String,
          load_csv name ex parsed = LoadResult.badParameter (pre ++ exc ++ post)) := by
  cases ex
  · refine ⟨by simp [load_csv, LoadResult.isBad], ?_, ?_⟩
    · intro t h
      exact absurd h (by simp)
    · intro h
      exact absurd h (by simp)
  · cases parsed with
    | ok t =>
        refine ⟨by simp [load_csv, LoadResult.isBad], ?_, ?_⟩
        · intro u _ hu
          simp only [Except.ok.injEq] at hu
          subst hu
          rfl
        · intro _ h
          exact absurd h (by simp)
    | error e =>
        refine ⟨by simp [load_csv, LoadResult.isBad], ?_, ?_⟩
        · intro t _ h
          exact absurd h (by simp)
        · intro _ h
          simp only [Except.error.injEq] at h
          subst h
          exact ⟨"Не удалось прочитать CSV: ", "", by
            simp [load_csv, String.append_empty]⟩

/-- Concrete instance of the C7 theorem: an existing file whose content fails
to parse with cause "boom" yields a bad-parameter error whose message embeds
"boom". -/
theorem load_csv_witness :
    ∃ pre post : String,
      load_csv ("data.csv") true (Except.error ("boom")) =
        LoadResult.badParameter (pre ++ "boom" ++ post) :=
  (load_csv_spec ("data.csv") ("boom") true (Except.error ("boom"))).2.2 rfl rfl

/-- C8: the `head` command displays `min n (row count)` rows for every
requested `n` — the clamp lowers `n` to the row count when it exceeds it,
otherwise exactly the first `n` rows are shown; the operation is total. -/
theorem head_clamps_spec (t : Table) (n : Nat) :
    headClamp n t.nRows = min n t.nRows
    ∧ (t.headTable n).nRows = min n t.nRows
    ∧ (n ≤ t.nRows → t.headTable n =
        ⟨t.cols.map (fun c => ⟨c.name, c.cells.take n⟩)⟩)
    ∧ (t.nRows < n → t.headTable n =
        ⟨t.cols.map (fun c => ⟨c.name, c.cells.take t.nRows⟩)⟩) := by
  have hc : headClamp n t.nRows = min n t.nRows := by
    unfold headClamp
    split <;> omega
  refine ⟨hc, ?_, ?_, ?_⟩
  · rcases t with ⟨cols⟩
    cases cols with
    | nil => simp [Table.headTable, Table.nRows]
    | cons c cs =>
        simp only [Table.headTable, Table.nRows, List.map_cons,
          List.length_take, headClamp]
        split <;> omega
  · intro h
    unfold Table.headTable
    rw [hc, Nat.min_eq_left h]
  · intro h
    unfold Table.headTable
    rw [hc, Nat.min_eq_right (le_of_lt h)]

/-- Concrete instance of the C8 theorem: requesting 10 rows of the 4-row
basic-scenario table displays all 4 rows. -/
theorem head_clamps_witness :
    headClamp 10 sampleTable.nRows = min 10 sampleTable.nRows
    ∧ sampleTable.headTable 10 =
        ⟨sampleTable.cols.map (fun c => ⟨c.name, c.cells.take sampleTable.nRows⟩)⟩ :=
  ⟨(head_clamps_spec sampleTable 10).1,
   (head_clamps_spec sampleTable 10).2.2.2 (by decide)⟩

/-- Concrete instance of the C10 theorem: starting from a filesystem without
the output directory and with no artifacts, a failed load leaves the
directory created and the artifact list empty. -/
theorem report_not_atomic_witness :
    (stateAfterLoadFailure ⟨false, []⟩ true true).outDirExists = true
    ∧ (stateAfterLoadFailure ⟨false, []⟩ true true).artifacts = []
    ∧ ReportStep.isArtifactWrite ReportStep.mkdirOutDir = false :=
  ⟨(report_not_atomic_on_load_failure ⟨false, []⟩ true true).2.2.1,
   (report_not_atomic_on_load_failure ⟨false, []⟩ true true).2.2.2.1,
   (report_not_atomic_on_load_failure ⟨false, []⟩ true true).2.2.2.2
     ReportStep.mkdirOutDir (by decide)⟩

end EdaCli
